import Mathlib

/-!
Shallow embedding of `chia/farmer/farmer_api.py` (FarmerAPI message handlers).

Cryptographic hashes, public/private keys and BLS signatures are opaque byte
strings in the source; they are modelled as `Nat` values, and the BLS
primitives (`AugSchemeMPL.sign/aggregate/verify`, `generate_plot_public_key`,
`verify_and_get_quality_string`) together with the consensus numeric functions
(`calculate_iterations_quality`, `calculate_sp_interval_iters`), which live
outside this file's source, are taken as an abstract parameter record
`CryptoOps` — the handlers are proved correct for every instantiation.

Python dicts become `Nat → Option v` maps; a handler returns an `HRes`
record holding the outcome (normal return, or a propagated Python exception:
KeyError / AssertionError / IndexError), the final farmer state, and the
ordered list of outbound messages produced before returning or raising.
`await`-ed network exchanges (harvester signature request, pool submission)
are modelled by passing the collaborator's answer in as an explicit argument.
-/

namespace FarmerApi

/-- A Python exception kind that can escape a handler body. -/
inductive PyErr where
  | keyError
  | assertionError
  | indexError
deriving DecidableEq, Repr

/-- Handler outcome: normal return, or an exception propagating out. -/
inductive Outcome where
  | ok
  | err (e : PyErr)
deriving DecidableEq, Repr

/-- `farmer_protocol.NewSignagePoint` (also the registry entry type). -/
structure SignagePoint where
  challenge_hash : Nat
  challenge_chain_sp : Nat
  reward_chain_sp : Nat
  signage_point_index : Nat
  difficulty : Nat
  sub_slot_iters : Nat
deriving DecidableEq, Repr

/-- `ProofOfSpace` fields read by this file. -/
structure ProofOfSpace where
  size : Nat
  pool_public_key : Option Nat
  pool_contract_puzzle_hash : Option Nat
  plot_public_key : Nat
deriving DecidableEq, Repr

/-- `harvester_protocol.NewProofOfSpace`. -/
structure NewProofOfSpace where
  plot_identifier : Nat
  challenge_hash : Nat
  sp_hash : Nat
  proof : ProofOfSpace
  signage_point_index : Nat
deriving DecidableEq, Repr

/-- `harvester_protocol.RespondSignatures`: `message_signatures` is an ordered
list of (message, harvester partial signature) pairs. -/
structure RespondSignatures where
  plot_identifier : Nat
  challenge_hash : Nat
  sp_hash : Nat
  local_pk : Nat
  farmer_pk : Nat
  message_signatures : List (Nat × Nat)
deriving DecidableEq, Repr

/-- `harvester_protocol.RequestSignatures`. -/
structure RequestSignaturesMsg where
  plot_identifier : Nat
  challenge_hash : Nat
  sp_hash : Nat
  messages : List Nat
deriving DecidableEq, Repr

/-- `farmer_protocol.DeclareProofOfSpace`. -/
structure DeclareProofOfSpaceMsg where
  challenge_hash : Nat
  challenge_chain_sp : Nat
  signage_point_index : Nat
  reward_chain_sp : Nat
  pospace : ProofOfSpace
  agg_sig_cc_sp : Nat
  agg_sig_rc_sp : Nat
  farmer_target : Nat
  pool_target : Option (Nat × Nat)
  pool_target_signature : Option Nat
deriving DecidableEq, Repr

/-- `farmer_protocol.SignedValues`. -/
structure SignedValuesMsg where
  quality_string : Nat
  foliage_agg_sig : Nat
  foliage_block_agg_sig : Nat
deriving DecidableEq, Repr

/-- `harvester_protocol.NewSignagePointHarvester`. -/
structure NewSignagePointHarvesterMsg where
  challenge_hash : Nat
  difficulty : Nat
  sub_slot_iters : Nat
  signage_point_index : Nat
  challenge_chain_sp : Nat
deriving DecidableEq, Repr

/-- `farmer_protocol.RequestSignedValues`. -/
structure RequestSignedValues where
  quality_string : Nat
  foliage_block_data_hash : Nat
  foliage_transaction_block_hash : Nat
deriving DecidableEq, Repr

/-- The pool payload built by the pool flow (source type of the same shape:
proof, difficulty, sp_hash, end_of_sub_slot flag, payout address). -/
structure PoolPayload where
  proof : ProofOfSpace
  difficulty : Nat
  sp_hash : Nat
  end_of_sub_slot : Bool
  payout_address : Nat
deriving DecidableEq, Repr

/-- The pool submission: payload plus the final aggregate signature. -/
structure PoolSubmission where
  payload : PoolPayload
  agg_sig : Nat
deriving DecidableEq, Repr

/-- The pool's JSON response dict: each key may be absent. -/
structure PoolResponse where
  error_code : Option Nat
  error_message : Option Nat
  current_difficulty : Option Nat
deriving DecidableEq, Repr

/-- Message to full-node peers (broadcast via `send_to_all`). -/
inductive FullNodeMsg where
  | declare (m : DeclareProofOfSpaceMsg)
  | signedValues (m : SignedValuesMsg)
deriving DecidableEq, Repr

/-- An outbound communication performed by a handler, in program order. -/
inductive Out where
  | reply (m : RequestSignaturesMsg)
  | toFullNodes (m : FullNodeMsg)
  | toHarvesters (m : NewSignagePointHarvesterMsg)
  | toPeer (node_id : Nat) (m : RequestSignaturesMsg)
  | requestToPeer (m : RequestSignaturesMsg)
  | poolSubmit (m : PoolSubmission)
deriving DecidableEq, Repr

/-- `true` iff the outbound item is a broadcast to full-node peers. -/
def Out.isToFullNodes : Out → Bool
  | .toFullNodes _ => true
  | _ => false

/-- Opaque cryptographic / consensus operations consumed by the handlers. -/
structure CryptoOps where
  verify_and_get_quality_string : ProofOfSpace → Nat → Nat → Option Nat
  calculate_iterations_quality : Nat → Nat → Nat → Nat → Nat → Nat
  calculate_sp_interval_iters : Nat → Nat
  get_g1 : Nat → Nat
  generate_plot_public_key : Nat → Nat → Nat
  sign : Nat → Nat → Nat → Nat
  sign_plain : Nat → Nat → Nat
  aggregate : List Nat → Nat
  verify : Nat → Nat → Nat → Bool
  payload_hash : PoolPayload → Nat
  encode_pool_target : Nat × Nat → Nat

/-- The mutable farmer state touched by `farmer_api.py`. -/
structure FarmerState where
  number_of_responses : Nat → Option Nat
  cache_add_time : Nat → Option Nat
  sps : Nat → Option (List SignagePoint)
  proofs_of_space : Nat → Option (List (Nat × ProofOfSpace))
  quality_str_to_identifiers : Nat → Option (Nat × Nat × Nat × Nat)
  private_keys : List Nat
  pool_sks_map : Nat → Option Nat
  pool_target : Nat
  farmer_target : Nat
  pooling_enabled : Bool
  pool_difficulty : Nat
  pool_sub_slot_iters : Nat
  iters_limit : Nat
  pool_payout_address : Nat
  difficulty_constant_factor : Nat
  last_pool_submit_timestamp : Nat

/-- Result of running one handler: outcome, final state, outbound messages
(in order; messages already sent remain sent even if an exception follows). -/
structure HRes where
  outcome : Outcome
  state : FarmerState
  msgs : List Out

/-- Python dict assignment `d[k] = v`. -/
def dictSet {v : Type} (d : Nat → Option v) (k : Nat) (x : v) : Nat → Option v :=
  fun k2 => if k2 = k then some x else d k2

/-- `response.message_signatures[i]`, total form used where the source has
already established the index is in range. -/
def msgAt (resp : RespondSignatures) (i : Nat) : Nat × Nat :=
  (resp.message_signatures.get? i).getD (0, 0)

/-- `max_pos_per_sp` (farmer_api.py line 42). -/
def max_pos_per_sp : Nat := 5

/-! ## `process_new_proof_of_space_for_pool` (lines 313-397) -/

/-- Loop at lines 361-368: for each local secret key matching the declared
farmer public key, reconstruct the plot key, check it, sign, aggregate with
the harvester share, verify; a failed equality or verification is a Python
`assert` failure.  No break: the last matching key wins. -/
def plotSigLoop (C : CryptoOps) (resp : RespondSignatures) (m plotPk hsig : Nat) :
    List Nat → Option Nat → Except PyErr (Option Nat)
  | [], acc => .ok acc
  | sk :: rest, acc =>
    let pk := C.get_g1 sk
    if pk = resp.farmer_pk then
      let agg_pk := C.generate_plot_public_key resp.local_pk pk
      if agg_pk = plotPk then
        let sig_farmer := C.sign sk m agg_pk
        let ps := C.aggregate [sig_farmer, hsig]
        if C.verify agg_pk m ps then plotSigLoop C resp m plotPk hsig rest (some ps)
        else .error .assertionError
      else .error .assertionError
    else plotSigLoop C resp m plotPk hsig rest acc

/-- Lines 313-397.  `harvResp` is the harvester's answer to the
`request_signatures` exchange (`none` models a non-RespondSignatures reply);
`poolResp` is the pool API answer (`.error` models a raised transport
exception, caught by the `try`). -/
def process_new_proof_of_space_for_pool (C : CryptoOps) (now : Nat)
    (harvResp : Option RespondSignatures) (poolResp : Except Unit PoolResponse)
    (s : FarmerState) (npos : NewProofOfSpace) (pool_public_key : Nat) (q : Nat) : HRes :=
  let required_iters := C.calculate_iterations_quality s.difficulty_constant_factor q
      npos.proof.size s.pool_difficulty npos.sp_hash
  if required_iters ≥ s.iters_limit then ⟨.ok, s, []⟩
  else
    let is_eos := npos.signage_point_index == 0
    let payload : PoolPayload :=
      ⟨npos.proof, s.pool_difficulty, npos.sp_hash, is_eos, s.pool_payout_address⟩
    let m_to_sign := C.payload_hash payload
    let request : RequestSignaturesMsg :=
      ⟨npos.plot_identifier, npos.challenge_hash, npos.sp_hash, [m_to_sign]⟩
    let out0 := [Out.requestToPeer request]
    match harvResp with
    | none => ⟨.ok, s, out0⟩
    | some resp =>
      if resp.message_signatures.length = 1 then
        match plotSigLoop C resp m_to_sign npos.proof.plot_public_key
            (msgAt resp 0).2 s.private_keys none with
        | .error e => ⟨.err e, s, out0⟩
        | .ok plot_signature =>
          match s.pool_sks_map pool_public_key with
          | none => ⟨.err .keyError, s, out0⟩
          | some pool_sk =>
            let authentication_signature := C.sign_plain pool_sk m_to_sign
            match plot_signature with
            | none => ⟨.err .assertionError, s, out0⟩
            | some ps =>
              let agg_sig := C.aggregate [ps, authentication_signature]
              let submission : PoolSubmission := ⟨payload, agg_sig⟩
              let s2 := { s with last_pool_submit_timestamp := now }
              let msgs := out0 ++ [Out.poolSubmit submission]
              match poolResp with
              | .error _ => ⟨.ok, s2, msgs⟩
              | .ok pr =>
                match pr.error_code with
                | some ec =>
                  if ec = 5 then
                    match pr.current_difficulty with
                    | none => ⟨.err .keyError, s2, msgs⟩
                    | some d => ⟨.ok, { s2 with pool_difficulty := d }, msgs⟩
                  else
                    match pr.error_message with
                    | none => ⟨.err .keyError, s2, msgs⟩
                    | some _ => ⟨.ok, s2, msgs⟩
                | none =>
                  match pr.current_difficulty with
                  | none => ⟨.err .keyError, s2, msgs⟩
                  | some d => ⟨.ok, { s2 with pool_difficulty := d }, msgs⟩
      else ⟨.err .assertionError, s, out0⟩

/-! ## `new_proof_of_space` (lines 31-122) -/

/-- The `for sp in sps:` loop body (lines 59-122).  Every path through the
body ends in a `return`, so later list entries are never reached; the
recursive structure of the source loop is kept by matching on the list. -/
def nposLoop (C : CryptoOps) (now peerId : Nat)
    (harvResp : Option RespondSignatures) (poolResp : Except Unit PoolResponse)
    (s : FarmerState) (npos : NewProofOfSpace) : List SignagePoint → HRes
  | [] => ⟨.ok, s, []⟩
  | sp :: _ =>
    match C.verify_and_get_quality_string npos.proof npos.challenge_hash npos.sp_hash with
    | none => ⟨.ok, s, []⟩
    | some q =>
      let s := { s with number_of_responses := (dictSet s.number_of_responses npos.sp_hash
          (((s.number_of_responses npos.sp_hash).getD 0) + 1)) }
      let required_iters := C.calculate_iterations_quality s.difficulty_constant_factor q
          npos.proof.size sp.difficulty npos.sp_hash
      if required_iters < C.calculate_sp_interval_iters sp.sub_slot_iters then
        let request : RequestSignaturesMsg :=
          ⟨npos.plot_identifier, npos.challenge_hash, npos.sp_hash,
            [sp.challenge_chain_sp, sp.reward_chain_sp]⟩
        let s := { s with proofs_of_space :=
          (match s.proofs_of_space npos.sp_hash with
           | none => dictSet s.proofs_of_space npos.sp_hash
               [(npos.plot_identifier, npos.proof)]
           | some l => dictSet s.proofs_of_space npos.sp_hash
               (l ++ [(npos.plot_identifier, npos.proof)])) }
        let s := { s with cache_add_time := dictSet s.cache_add_time npos.sp_hash now }
        let s := { s with quality_str_to_identifiers :=
          (dictSet s.quality_str_to_identifiers q
            (npos.plot_identifier, npos.challenge_hash, npos.sp_hash, peerId)) }
        let s := { s with cache_add_time := dictSet s.cache_add_time q now }
        ⟨.ok, s, [Out.reply request]⟩
      else
        match npos.proof.pool_public_key with
        | some ppk =>
          if s.pooling_enabled then
            process_new_proof_of_space_for_pool C now harvResp poolResp s npos ppk q
          else ⟨.ok, s, []⟩
        | none => ⟨.ok, s, []⟩

/-- Lines 31-122, the whole handler. -/
def new_proof_of_space (C : CryptoOps) (now peerId : Nat)
    (harvResp : Option RespondSignatures) (poolResp : Except Unit PoolResponse)
    (s : FarmerState) (npos : NewProofOfSpace) : HRes :=
  let s :=
    if (s.number_of_responses npos.sp_hash).isNone then
      { s with number_of_responses := dictSet s.number_of_responses npos.sp_hash 0,
               cache_add_time := dictSet s.cache_add_time npos.sp_hash now }
    else s
  if ((s.number_of_responses npos.sp_hash).getD 0) > max_pos_per_sp then ⟨.ok, s, []⟩
  else
    match s.sps npos.sp_hash with
    | none => ⟨.ok, s, []⟩
    | some sps => nposLoop C now peerId harvResp poolResp s npos sps

/-! ## `respond_signatures` (lines 125-244) -/

/-- Loop at lines 136-140 computing `found_sp_hash_debug` and
`is_sp_signatures`; indexing into `message_signatures` can raise. -/
def spMatch (spHash : Nat) (msgsigs : List (Nat × Nat)) :
    List SignagePoint → Bool → Bool → Except PyErr (Bool × Bool)
  | [], found, issp => .ok (found, issp)
  | sp :: rest, found, issp =>
    match msgsigs.get? 0 with
    | none => .error .indexError
    | some p0 =>
      if p0.1 = spHash then
        match msgsigs.get? 1 with
        | none => .error .indexError
        | some p1 =>
          if sp.reward_chain_sp = p1.1 then spMatch spHash msgsigs rest true true
          else spMatch spHash msgsigs rest true issp
      else spMatch spHash msgsigs rest found issp

/-- Loop at lines 163-211 (signage-point signature branch): returns from the
whole handler on the first matching key after building and broadcasting the
DeclareProofOfSpace; equality/verification failures are `assert` failures. -/
def spLoop (C : CryptoOps) (s : FarmerState) (resp : RespondSignatures)
    (pos : ProofOfSpace) (spIndex cc ccsig rc rcsig : Nat) :
    List Nat → Outcome × List Out
  | [] => (.ok, [])
  | sk :: rest =>
    let pk := C.get_g1 sk
    if pk = resp.farmer_pk then
      let agg_pk := C.generate_plot_public_key resp.local_pk pk
      if agg_pk = pos.plot_public_key then
        let farmer_share_cc := C.sign sk cc agg_pk
        let agg_sig_cc := C.aggregate [ccsig, farmer_share_cc]
        if C.verify agg_pk cc agg_sig_cc then
          let farmer_share_rc := C.sign sk rc agg_pk
          let agg_sig_rc := C.aggregate [rcsig, farmer_share_rc]
          if C.verify agg_pk rc agg_sig_rc then
            match pos.pool_public_key with
            | some ppk =>
              match pos.pool_contract_puzzle_hash with
              | some _ => (.err .assertionError, [])
              | none =>
                match s.pool_sks_map ppk with
                | none => (.ok, [])
                | some psk =>
                  let pt : Nat × Nat := (s.pool_target, 0)
                  let pts := C.sign_plain psk (C.encode_pool_target pt)
                  (.ok, [Out.toFullNodes (.declare
                    ⟨resp.challenge_hash, cc, spIndex, rc, pos, agg_sig_cc, agg_sig_rc,
                      s.farmer_target, some pt, some pts⟩)])
            | none =>
              match pos.pool_contract_puzzle_hash with
              | none => (.err .assertionError, [])
              | some _ =>
                (.ok, [Out.toFullNodes (.declare
                  ⟨resp.challenge_hash, cc, spIndex, rc, pos, agg_sig_cc, agg_sig_rc,
                    s.farmer_target, none, none⟩)])
          else (.err .assertionError, [])
        else (.err .assertionError, [])
      else (.err .assertionError, [])
    else spLoop C s resp pos spIndex cc ccsig rc rcsig rest

/-- Loop at lines 215-244 (block signature branch): destructures the two
message/signature pairs on every iteration, and keeps iterating after each
broadcast (no `return` in the loop body). -/
def blockLoop (C : CryptoOps) (resp : RespondSignatures) (pos : ProofOfSpace)
    (q : Nat) : List Nat → List Out → Outcome × List Out
  | [], acc => (.ok, acc)
  | sk :: rest, acc =>
    match resp.message_signatures.get? 0, resp.message_signatures.get? 1 with
    | some p0, some p1 =>
      let pk := C.get_g1 sk
      if pk = resp.farmer_pk then
        let agg_pk := C.generate_plot_public_key resp.local_pk pk
        if agg_pk = pos.plot_public_key then
          let foliage_sig_farmer := C.sign sk p0.1 agg_pk
          let foliage_tx_sig_farmer := C.sign sk p1.1 agg_pk
          let foliage_agg_sig := C.aggregate [p0.2, foliage_sig_farmer]
          let foliage_block_agg_sig := C.aggregate [p1.2, foliage_tx_sig_farmer]
          if C.verify agg_pk p0.1 foliage_agg_sig then
            if C.verify agg_pk p1.1 foliage_block_agg_sig then
              blockLoop C resp pos q rest
                (acc ++ [Out.toFullNodes (.signedValues ⟨q, foliage_agg_sig, foliage_block_agg_sig⟩)])
            else (.err .assertionError, acc)
          else (.err .assertionError, acc)
        else (.err .assertionError, acc)
      else blockLoop C resp pos q rest acc
    | _, _ => (.err .indexError, acc)

/-- Lines 144-244: from the proof lookup onwards (after the branch flags are
settled).  The Python loop at lines 145-147 keeps the LAST matching proof. -/
def respondAfter (C : CryptoOps) (s : FarmerState) (resp : RespondSignatures)
    (spIndex : Nat) (is_sp : Bool) : HRes :=
  match s.proofs_of_space resp.sp_hash with
  | none => ⟨.err .keyError, s, []⟩
  | some entries =>
    match entries.foldl
        (fun acc e => if e.1 = resp.plot_identifier then some e.2 else acc) none with
    | none => ⟨.err .assertionError, s, []⟩
    | some pos =>
      match C.verify_and_get_quality_string pos resp.challenge_hash resp.sp_hash with
      | none => ⟨.ok, s, []⟩
      | some q =>
        if is_sp then
          match resp.message_signatures.get? 0, resp.message_signatures.get? 1 with
          | some p0, some p1 =>
            let r := spLoop C s resp pos spIndex p0.1 p0.2 p1.1 p1.2 s.private_keys
            ⟨r.1, s, r.2⟩
          | _, _ => ⟨.err .indexError, s, []⟩
        else
          let r := blockLoop C resp pos q s.private_keys []
          ⟨r.1, s, r.2⟩

/-- Lines 125-244, the whole handler. -/
def respond_signatures (C : CryptoOps) (s : FarmerState)
    (resp : RespondSignatures) : HRes :=
  match s.sps resp.sp_hash with
  | none => ⟨.ok, s, []⟩
  | some sps =>
    match sps with
    | [] => ⟨.err .indexError, s, []⟩
    | sp0 :: _ =>
      match spMatch resp.sp_hash resp.message_signatures sps false false with
      | .error e => ⟨.err e, s, []⟩
      | .ok (found, is_sp) =>
        if found && !is_sp then ⟨.err .assertionError, s, []⟩
        else respondAfter C s resp sp0.signage_point_index is_sp

/-! ## `new_signage_point` (lines 251-276) -/

/-- Lines 251-276. -/
def new_signage_point (now : Nat) (s : FarmerState)
    (nsp : SignagePoint) : HRes :=
  let difficulty := if s.pooling_enabled then s.pool_difficulty else nsp.difficulty
  let sub_slot_iters := if s.pooling_enabled then s.pool_sub_slot_iters else nsp.sub_slot_iters
  let message : NewSignagePointHarvesterMsg :=
    ⟨nsp.challenge_hash, difficulty, sub_slot_iters, nsp.signage_point_index,
      nsp.challenge_chain_sp⟩
  let msgs := [Out.toHarvesters message]
  let s :=
    if (s.sps nsp.challenge_chain_sp).isNone then
      { s with sps := dictSet s.sps nsp.challenge_chain_sp [] }
    else s
  let bucket := (s.sps nsp.challenge_chain_sp).getD []
  if nsp ∈ bucket then ⟨.ok, s, msgs⟩
  else
    let s := { s with
      sps := dictSet s.sps nsp.challenge_chain_sp (bucket ++ [nsp]),
      cache_add_time := dictSet s.cache_add_time nsp.challenge_chain_sp now }
    ⟨.ok, s, msgs⟩

/-! ## `request_signed_values` (lines 279-295) -/

/-- Lines 279-295. -/
def request_signed_values (s : FarmerState) (req : RequestSignedValues) : HRes :=
  match s.quality_str_to_identifiers req.quality_string with
  | none => ⟨.ok, s, []⟩
  | some ids =>
    let request : RequestSignaturesMsg :=
      ⟨ids.1, ids.2.1, ids.2.2.1,
        [req.foliage_block_data_hash, req.foliage_transaction_block_hash]⟩
    ⟨.ok, s, [Out.toPeer ids.2.2.2 request]⟩

end FarmerApi

namespace FarmerApi

/-! ## Concrete fixtures used by witnesses and counterexamples -/

/-- An all-empty farmer state (pool difficulty 1, iters limit 1). -/
def S0 : FarmerState :=
  ⟨(fun _ => none), (fun _ => none), (fun _ => none), (fun _ => none), (fun _ => none),
    [], (fun _ => none), 0, 0, false, 1, 1, 1, 0, 1, 0⟩

/-- A concrete signage point under key 10. -/
def spA : SignagePoint := ⟨2, 10, 3, 4, 1, 1⟩

/-- A concrete proof of space without pool attribution. -/
def proof0 : ProofOfSpace := ⟨32, none, none, 0⟩

/-- A concrete inbound proof for key 10. -/
def npos0 : NewProofOfSpace := ⟨1, 2, 10, proof0, 1⟩

/-- A concrete crypto instantiation: every proof verifies with quality 7,
required iterations are always 0, the interval threshold is 1 (so every
proof is block-eligible), and aggregate verification always succeeds. -/
def C0 : CryptoOps :=
  ⟨(fun _ _ _ => some 7), (fun _ _ _ _ _ => 0), (fun _ => 1), (fun n => n),
    (fun a b => a + b), (fun sk m pk => sk + m + pk), (fun sk m => sk + m),
    (fun l => l.sum), (fun _ _ _ => true), (fun _ => 11), (fun p => p.1 + p.2)⟩

/-- State whose signage point registry holds `spA` under key 10. -/
def s8 : FarmerState :=
  { S0 with sps := fun k => if k = 10 then some [spA] else none }

/-- One intake step of the C3 scenario: handle `npos0` and keep the state. -/
def c3step (s : FarmerState) : FarmerState :=
  (new_proof_of_space C0 0 0 none (.error ()) s npos0).state

/-- State of the C3 scenario after `n` submissions of `npos0`. -/
def c3state : Nat → FarmerState
  | 0 => s8
  | n + 1 => c3step (c3state n)

/-! ## C9: unknown quality string in `request_signed_values` -/

/-- C9: for every RequestSignedValues whose quality string is not in the
quality index, the handler returns normally with no outbound message and the
state untouched. -/
theorem unknown_quality_string_is_safe (s : FarmerState) (req : RequestSignedValues)
    (h : s.quality_str_to_identifiers req.quality_string = none) :
    request_signed_values s req = ⟨.ok, s, []⟩ := by
  unfold request_signed_values
  rw [h]

/-- Witness for C9 at a concrete state and request. -/
theorem unknown_quality_string_is_safe_witness :
    S0.quality_str_to_identifiers 5 = none ∧
    request_signed_values S0 ⟨5, 1, 2⟩ = ⟨.ok, S0, []⟩ :=
  ⟨rfl, unknown_quality_string_is_safe S0 ⟨5, 1, 2⟩ rfl⟩

/-! ## C8: duplicate signage point registration is idempotent -/

/-- After handling a NewSignagePoint, it is a member of its key's bucket. -/
theorem mem_bucket_after_new_signage_point (now : Nat) (s : FarmerState)
    (nsp : SignagePoint) :
    nsp ∈ (((new_signage_point now s nsp).state.sps nsp.challenge_chain_sp).getD []) := by
  unfold new_signage_point
  by_cases h0 : (s.sps nsp.challenge_chain_sp).isNone
  · simp [h0, dictSet]
  · simp only [h0, Bool.false_eq_true, if_false]
    split
    · next hmem => exact hmem
    · simp [dictSet]

/-- Handling a NewSignagePoint already present in its bucket leaves the
registry untouched. -/
theorem sps_unchanged_of_mem (now : Nat) (s : FarmerState) (nsp : SignagePoint)
    (h : nsp ∈ ((s.sps nsp.challenge_chain_sp).getD [])) :
    (new_signage_point now s nsp).state.sps = s.sps := by
  have hs : (s.sps nsp.challenge_chain_sp).isNone = false := by
    cases hk : s.sps nsp.challenge_chain_sp with
    | none => rw [hk] at h; simp at h
    | some l => rfl
  unfold new_signage_point
  simp [hs, h]

/-- C8: registering a SignagePoint already present under its key leaves the
registry bucket untouched, so handling the same NewSignagePoint twice leaves
the registry (and the bucket length) equal to handling it once. -/
theorem new_signage_point_idempotent (t1 t2 : Nat) (s : FarmerState)
    (nsp : SignagePoint) :
    (nsp ∈ ((s.sps nsp.challenge_chain_sp).getD []) →
      (new_signage_point t1 s nsp).state.sps = s.sps) ∧
    (new_signage_point t2 (new_signage_point t1 s nsp).state nsp).state.sps
      = (new_signage_point t1 s nsp).state.sps ∧
    ((((new_signage_point t2 (new_signage_point t1 s nsp).state nsp).state.sps
        nsp.challenge_chain_sp).getD []).length
      = (((new_signage_point t1 s nsp).state.sps nsp.challenge_chain_sp).getD []).length) := by
  have h2 := sps_unchanged_of_mem t2 (new_signage_point t1 s nsp).state nsp
    (mem_bucket_after_new_signage_point t1 s nsp)
  exact ⟨sps_unchanged_of_mem t1 s nsp, h2, by rw [h2]⟩

/-- Witness for C8: a concrete duplicate submission under key 10. -/
theorem new_signage_point_idempotent_witness :
    spA ∈ ((s8.sps spA.challenge_chain_sp).getD []) ∧
    (new_signage_point 1 s8 spA).state.sps = s8.sps :=
  ⟨by decide, (new_signage_point_idempotent 1 2 s8 spA).1 (by decide)⟩

end FarmerApi

namespace FarmerApi

/-! ## C4: NewProofOfSpace for an unregistered signage point -/

/-- C4 counterexample: with an unregistered sp_hash the intake is NOT applied
"entirely or not at all" — before the registry check the handler creates a
fresh response-counter entry (0) and a timestamp for the unknown key, so the
response-counter state observably changes. -/
theorem unknown_sp_counterexample :
    S0.sps 10 = none ∧ S0.number_of_responses 10 = none ∧
    (new_proof_of_space C0 0 0 none (.error ()) S0 npos0).msgs = [] ∧
    (new_proof_of_space C0 0 0 none (.error ()) S0 npos0).state.number_of_responses 10
      = some 0 ∧
    (new_proof_of_space C0 0 0 none (.error ()) S0 npos0).state.cache_add_time 10
      = some 0 := by
  refine ⟨rfl, rfl, rfl, ?_, ?_⟩ <;> decide

/-- C4 (amended): for a NewProofOfSpace whose sp_hash is unregistered the
handler returns normally with no reply, leaving the registry and the proof
and quality indexes unchanged; the response counter and timestamp are also
unchanged when the counter key already exists, but when it is absent a fresh
counter entry 0 and a timestamp are created before the registry check. -/
theorem unknown_sp_intake (C : CryptoOps) (now peerId : Nat)
    (harvResp : Option RespondSignatures) (poolResp : Except Unit PoolResponse)
    (s : FarmerState) (npos : NewProofOfSpace)
    (hunk : s.sps npos.sp_hash = none) :
    (new_proof_of_space C now peerId harvResp poolResp s npos).outcome = .ok ∧
    (new_proof_of_space C now peerId harvResp poolResp s npos).msgs = [] ∧
    (new_proof_of_space C now peerId harvResp poolResp s npos).state.sps = s.sps ∧
    (new_proof_of_space C now peerId harvResp poolResp s npos).state.proofs_of_space
      = s.proofs_of_space ∧
    (new_proof_of_space C now peerId harvResp poolResp s npos).state.quality_str_to_identifiers
      = s.quality_str_to_identifiers ∧
    ((s.number_of_responses npos.sp_hash).isSome →
      (new_proof_of_space C now peerId harvResp poolResp s npos).state = s) ∧
    ((s.number_of_responses npos.sp_hash) = none →
      (new_proof_of_space C now peerId harvResp poolResp s npos).state =
        { s with number_of_responses := dictSet s.number_of_responses npos.sp_hash 0,
                 cache_add_time := dictSet s.cache_add_time npos.sp_hash now }) := by
  unfold new_proof_of_space
  cases hk : s.number_of_responses npos.sp_hash with
  | none =>
    simp [hk, hunk, dictSet, max_pos_per_sp]
  | some n =>
    simp only [hk, Option.isNone_some, Bool.false_eq_true, if_false]
    split
    · simp
    · simp [hunk]

end FarmerApi

namespace FarmerApi

/-! ## C3: per-signage-point response cap -/

/-- C3 counterexample: after five accepted proofs the counter is 5, which is
not `> 5`, so the SIXTH block-eligible proof for the same key still produces
a RequestSignatures reply (the claim states the 6th produces none). -/
theorem pos_cap_counterexample :
    (c3state 5).number_of_responses 10 = some 5 ∧
    (new_proof_of_space C0 0 0 none (.error ()) (c3state 5) npos0).msgs
      = [Out.reply ⟨1, 2, 10, [10, 3]⟩] := by
  refine ⟨?_, ?_⟩ <;> decide

/-- C3 (amended): the cap check `number_of_responses > 5` runs before the
increment, so for a single registered signage-point key the first SIX valid
block-eligible proofs each produce a RequestSignatures and the seventh (and
all later ones) produce none; once the stored counter exceeds 5 the handler
is a pure no-op (silent drop: normal return, no message, state unchanged). -/
theorem pos_cap_behavior (C : CryptoOps) (now peerId : Nat)
    (harvResp : Option RespondSignatures) (poolResp : Except Unit PoolResponse)
    (s : FarmerState) (npos : NewProofOfSpace) :
    ((s.number_of_responses npos.sp_hash).getD 0 > max_pos_per_sp →
      new_proof_of_space C now peerId harvResp poolResp s npos = ⟨.ok, s, []⟩) ∧
    ((new_proof_of_space C now peerId harvResp poolResp s npos).msgs ≠ [] →
      (s.number_of_responses npos.sp_hash).getD 0 ≤ max_pos_per_sp) ∧
    (∀ i : Fin 6,
      (new_proof_of_space C0 0 0 none (.error ()) (c3state i) npos0).msgs
        = [Out.reply ⟨1, 2, 10, [10, 3]⟩]) ∧
    (new_proof_of_space C0 0 0 none (.error ()) (c3state 6) npos0).msgs = [] := by
  have hcap : (s.number_of_responses npos.sp_hash).getD 0 > max_pos_per_sp →
      new_proof_of_space C now peerId harvResp poolResp s npos = ⟨.ok, s, []⟩ := by
    intro h
    have hsome : ¬ (s.number_of_responses npos.sp_hash).isNone = true := by
      cases hk : s.number_of_responses npos.sp_hash with
      | none => rw [hk] at h; simp [max_pos_per_sp] at h
      | some n => simp
    unfold new_proof_of_space
    simp only [Bool.not_eq_true] at hsome
    simp [hsome, h]
  refine ⟨hcap, ?_, ?_, ?_⟩
  · intro hne
    by_contra hgt
    exact hne (by rw [hcap (Nat.lt_of_not_le hgt)])
  · decide
  · decide

end FarmerApi

namespace FarmerApi

/-- State whose response counter for key 10 already exceeds the cap. -/
def s3w : FarmerState :=
  { S0 with number_of_responses := fun k => if k = 10 then some 6 else none }

/-- Witness for C3 at a concrete over-cap state. -/
theorem pos_cap_behavior_witness :
    (s3w.number_of_responses 10).getD 0 > max_pos_per_sp ∧
    new_proof_of_space C0 0 0 none (.error ()) s3w npos0 = ⟨.ok, s3w, []⟩ :=
  ⟨by decide, (pos_cap_behavior C0 0 0 none (.error ()) s3w npos0).1 (by decide)⟩

/-- Witness for C4 at a concrete state where the counter key already exists
but the signage point is unregistered. -/
theorem unknown_sp_intake_witness :
    s3w.sps 10 = none ∧ (s3w.number_of_responses 10).isSome = true ∧
    (new_proof_of_space C0 0 0 none (.error ()) s3w npos0).state = s3w :=
  ⟨rfl, by decide,
    ((unknown_sp_intake C0 0 0 none (.error ()) s3w npos0 rfl).2.2.2.2.2.1 (by decide))⟩

end FarmerApi

namespace FarmerApi

/-- The pool flow never touches the per-signage-point response counters. -/
theorem pool_preserves_counters (C : CryptoOps) (now : Nat)
    (harvResp : Option RespondSignatures) (poolResp : Except Unit PoolResponse)
    (s : FarmerState) (npos : NewProofOfSpace) (ppk q : Nat) :
    (process_new_proof_of_space_for_pool C now harvResp poolResp s npos ppk q).state.number_of_responses
      = s.number_of_responses := by
  simp only [process_new_proof_of_space_for_pool]
  repeat' split
  all_goals rfl

/-- Bumping the counter under one key raises `getD 0` by at most one at every key. -/
theorem dictSet_incr_bound (d : Nat → Option Nat) (key k : Nat) :
    (((dictSet d key ((d key).getD 0 + 1)) k).getD 0) ≤ ((d k).getD 0) + 1 := by
  by_cases h : k = key <;> simp [dictSet, h]

/-- The intake loop body increments the response counter at most once. -/
theorem nposLoop_counter_bound (C : CryptoOps) (now peerId : Nat)
    (harvResp : Option RespondSignatures) (poolResp : Except Unit PoolResponse)
    (s : FarmerState) (npos : NewProofOfSpace) (l : List SignagePoint) (k : Nat) :
    (((nposLoop C now peerId harvResp poolResp s npos l).state.number_of_responses k).getD 0)
      ≤ ((s.number_of_responses k).getD 0) + 1 := by
  cases l with
  | nil => exact Nat.le_succ _
  | cons sp rest =>
    simp only [nposLoop]
    cases hq : C.verify_and_get_quality_string npos.proof npos.challenge_hash npos.sp_hash with
    | none => exact Nat.le_succ _
    | some q =>
      simp only
      split
      · exact dictSet_incr_bound s.number_of_responses npos.sp_hash k
      · split
        · split
          · rw [pool_preserves_counters]
            exact dictSet_incr_bound s.number_of_responses npos.sp_hash k
          · exact dictSet_incr_bound s.number_of_responses npos.sp_hash k
        · exact dictSet_incr_bound s.number_of_responses npos.sp_hash k

/-- C10: inside `new_proof_of_space` the `for sp in sps:` loop returns at the
end of its first iteration, so the whole flow is decided by the first
registered SignagePoint for the key (later bucket entries are never
considered), and the response counter is incremented at most once per call. -/
theorem intake_first_sp_only (C : CryptoOps) (now peerId : Nat)
    (harvResp : Option RespondSignatures) (poolResp : Except Unit PoolResponse)
    (s : FarmerState) (npos : NewProofOfSpace) (sp : SignagePoint)
    (rest : List SignagePoint) (k : Nat) :
    nposLoop C now peerId harvResp poolResp s npos (sp :: rest)
      = nposLoop C now peerId harvResp poolResp s npos [sp] ∧
    (((new_proof_of_space C now peerId harvResp poolResp s npos).state.number_of_responses k).getD 0)
      ≤ ((s.number_of_responses k).getD 0) + 1 := by
  constructor
  · rfl
  · unfold new_proof_of_space
    cases hk : s.number_of_responses npos.sp_hash with
    | some n =>
      simp only [hk, Option.isNone_some, Bool.false_eq_true, if_false]
      split
      · exact Nat.le_succ _
      · split
        · exact Nat.le_succ _
        · exact nposLoop_counter_bound C now peerId harvResp poolResp s npos _ k
    | none =>
      simp only [hk, Option.isNone_none, if_true]
      have hc : ¬ (((dictSet s.number_of_responses npos.sp_hash 0) npos.sp_hash).getD 0
          > max_pos_per_sp) := by
        simp [dictSet, max_pos_per_sp]
      rw [if_neg hc]
      have hz : ∀ k2, (((dictSet s.number_of_responses npos.sp_hash 0) k2).getD 0)
          = ((s.number_of_responses k2).getD 0) := by
        intro k2
        by_cases h : k2 = npos.sp_hash <;> simp [dictSet, h, hk]
      split
      · calc (((dictSet s.number_of_responses npos.sp_hash 0) k).getD 0)
            = ((s.number_of_responses k).getD 0) := hz k
          _ ≤ ((s.number_of_responses k).getD 0) + 1 := Nat.le_succ _
      · calc ((((nposLoop C now peerId harvResp poolResp _ npos _).state.number_of_responses k).getD 0))
            ≤ (((dictSet s.number_of_responses npos.sp_hash 0) k).getD 0) + 1 :=
              nposLoop_counter_bound C now peerId harvResp poolResp _ npos _ k
          _ = ((s.number_of_responses k).getD 0) + 1 := by rw [hz k]

end FarmerApi

namespace FarmerApi

/-! ## C5: how the signage-point-signature branch is chosen -/

/-- When the first signed message differs from the response's sp_hash, the
`found` / `is_sp` flags pass through the loop unchanged. -/
theorem spMatch_of_ne (h : Nat) (ms : List (Nat × Nat)) (p0 : Nat × Nat)
    (hg : ms.get? 0 = some p0) (hne : p0.1 ≠ h) :
    ∀ (sps : List SignagePoint) (f i : Bool), spMatch h ms sps f i = .ok (f, i) := by
  intro sps
  induction sps with
  | nil => intro f i; rfl
  | cons sp rest ih =>
    intro f i
    unfold spMatch
    rw [hg]
    simp only [hne, if_false]
    exact ih f i

/-- When the first signed message equals the sp_hash, the loop reports
`found` and sets `is_sp` iff some bucket entry's reward-chain-SP matches the
second signed message. -/
theorem spMatch_of_eq (h : Nat) (ms : List (Nat × Nat)) (p0 p1 : Nat × Nat)
    (hg0 : ms.get? 0 = some p0) (hp : p0.1 = h) (hg1 : ms.get? 1 = some p1) :
    ∀ (sps : List SignagePoint) (f i : Bool),
      spMatch h ms sps f i
        = .ok (f || !sps.isEmpty, i || sps.any (fun sp => sp.reward_chain_sp == p1.1)) := by
  intro sps
  induction sps with
  | nil => intro f i; simp [spMatch]
  | cons sp rest ih =>
    intro f i
    unfold spMatch
    rw [hg0]
    simp only [hp, if_true, hg1]
    by_cases hrc : sp.reward_chain_sp = p1.1
    · simp only [hrc, if_true, ih true true]
      simp [hrc]
    · simp only [hrc, if_false, ih true i]
      have hb : (sp.reward_chain_sp == p1.1) = false := by
        simp [hrc]
      simp [hb]

/-- Whole-handler reduction when the first signed message does not match the
sp_hash: the block-signature branch is taken. -/
theorem respond_block_branch_of_ne (C : CryptoOps) (s : FarmerState)
    (resp : RespondSignatures) (sp0 : SignagePoint) (rest : List SignagePoint)
    (p0 : Nat × Nat) (hsps : s.sps resp.sp_hash = some (sp0 :: rest))
    (hg0 : resp.message_signatures.get? 0 = some p0)
    (hne : p0.1 ≠ resp.sp_hash) :
    respond_signatures C s resp = respondAfter C s resp sp0.signage_point_index false := by
  simp only [respond_signatures, hsps]
  rw [spMatch_of_ne resp.sp_hash resp.message_signatures p0 hg0 hne]
  simp

/-- Whole-handler reduction when the first signed message matches the
sp_hash and some registered SignagePoint's reward-chain-SP matches the
second: the signage-point branch is taken. -/
theorem respond_sp_branch_of_match (C : CryptoOps) (s : FarmerState)
    (resp : RespondSignatures) (sp0 : SignagePoint) (rest : List SignagePoint)
    (p0 p1 : Nat × Nat) (hsps : s.sps resp.sp_hash = some (sp0 :: rest))
    (hg0 : resp.message_signatures.get? 0 = some p0)
    (hp : p0.1 = resp.sp_hash)
    (hg1 : resp.message_signatures.get? 1 = some p1)
    (hany : (sp0 :: rest).any (fun sp => sp.reward_chain_sp == p1.1) = true) :
    respond_signatures C s resp = respondAfter C s resp sp0.signage_point_index true := by
  simp only [respond_signatures, hsps]
  rw [spMatch_of_eq resp.sp_hash resp.message_signatures p0 p1 hg0 hp hg1]
  simp [hany]

/-- Whole-handler reduction when the first signed message matches the
sp_hash but no registered SignagePoint's reward-chain-SP matches the second:
the `assert is_sp_signatures` fails (AssertionError). -/
theorem respond_assert_of_no_rc_match (C : CryptoOps) (s : FarmerState)
    (resp : RespondSignatures) (sp0 : SignagePoint) (rest : List SignagePoint)
    (p0 p1 : Nat × Nat) (hsps : s.sps resp.sp_hash = some (sp0 :: rest))
    (hg0 : resp.message_signatures.get? 0 = some p0)
    (hp : p0.1 = resp.sp_hash)
    (hg1 : resp.message_signatures.get? 1 = some p1)
    (hany : (sp0 :: rest).any (fun sp => sp.reward_chain_sp == p1.1) = false) :
    respond_signatures C s resp = ⟨.err .assertionError, s, []⟩ := by
  simp only [respond_signatures, hsps]
  rw [spMatch_of_eq resp.sp_hash resp.message_signatures p0 p1 hg0 hp hg1]
  simp [hany]

/-- C5 (amended): for a registered key the signage-point branch is taken iff
the first signed message equals the sp_hash AND some SignagePoint registered
under the key has a matching reward-chain-SP; when the first message matches
but no reward-chain-SP does, the handler raises AssertionError rather than
falling back to the block-signing branch; only when the first message
differs from the sp_hash is the response treated as a block-signing
response. -/
theorem respond_branch_decision (C : CryptoOps) (s : FarmerState)
    (resp : RespondSignatures) (sp0 : SignagePoint) (rest : List SignagePoint)
    (p0 : Nat × Nat) (hsps : s.sps resp.sp_hash = some (sp0 :: rest))
    (hg0 : resp.message_signatures.get? 0 = some p0) :
    (p0.1 ≠ resp.sp_hash →
      respond_signatures C s resp = respondAfter C s resp sp0.signage_point_index false) ∧
    (p0.1 = resp.sp_hash → ∀ p1, resp.message_signatures.get? 1 = some p1 →
      (((sp0 :: rest).any (fun sp => sp.reward_chain_sp == p1.1) = true →
        respond_signatures C s resp = respondAfter C s resp sp0.signage_point_index true) ∧
      ((sp0 :: rest).any (fun sp => sp.reward_chain_sp == p1.1) = false →
        respond_signatures C s resp = ⟨.err .assertionError, s, []⟩))) := by
  refine ⟨fun hne => respond_block_branch_of_ne C s resp sp0 rest p0 hsps hg0 hne,
    fun hp p1 hg1 => ⟨fun hany => ?_, fun hany => ?_⟩⟩
  · exact respond_sp_branch_of_match C s resp sp0 rest p0 p1 hsps hg0 hp hg1 hany
  · exact respond_assert_of_no_rc_match C s resp sp0 rest p0 p1 hsps hg0 hp hg1 hany

/-- A mismatched response for key 10: first message equals the sp_hash but
the second (99) matches no registered reward-chain-SP. -/
def resp5 : RespondSignatures := ⟨1, 2, 10, 4, 5, [(10, 1), (99, 1)]⟩

/-- C5 counterexample: with `spA` (reward_chain_sp = 3) registered under key
10, the mismatched `resp5` makes the handler raise AssertionError instead of
being treated as a block-signing response. -/
theorem respond_branch_counterexample :
    s8.sps 10 = some [spA] ∧ spA.reward_chain_sp = 3 ∧
    resp5.message_signatures = [(10, 1), (99, 1)] ∧
    (respond_signatures C0 s8 resp5).outcome = .err .assertionError := by
  refine ⟨rfl, rfl, rfl, ?_⟩
  decide

/-- A matching response for key 10: second message equals spA's
reward-chain-SP. -/
def resp5b : RespondSignatures := ⟨1, 2, 10, 4, 5, [(10, 1), (3, 1)]⟩

/-- Witness for C5: the signage-point branch is taken on a full match. -/
theorem respond_branch_decision_witness :
    (10, 1).1 = resp5b.sp_hash ∧
    [spA].any (fun sp => sp.reward_chain_sp == 3) = true ∧
    respond_signatures C0 s8 resp5b = respondAfter C0 s8 resp5b spA.signage_point_index true :=
  ⟨rfl, by decide,
    (((respond_branch_decision C0 s8 resp5b spA [] (10, 1) rfl rfl).2 rfl (3, 1) rfl).1 (by decide))⟩

end FarmerApi

namespace FarmerApi

/-! ## C2: missing key material and missing proof records -/

/-- The proof-selection fold (lines 145-147) finds nothing when no recorded
entry carries the claimed plot identifier. -/
theorem respond_foldl_no_match (pid : Nat) (entries : List (Nat × ProofOfSpace))
    (h : ∀ e ∈ entries, e.1 ≠ pid) :
    entries.foldl (fun acc e => if e.1 = pid then some e.2 else acc) none = none := by
  induction entries with
  | nil => rfl
  | cons e rest ih =>
    simp only [List.foldl_cons]
    rw [if_neg (h e (List.mem_cons_self e rest))]
    exact ih (fun x hx => h x (List.mem_cons_of_mem e hx))

/-- Lines 177-184 inside the signage-point signing loop: when the proof
carries a pool public key with no pool-contract hash, every matched key
passes the plot-key check and both aggregate verifications, and the pool
authentication key is absent, the loop logs the error and returns normally
with no broadcast. -/
theorem spLoop_missing_pool_key (C : CryptoOps) (s : FarmerState)
    (resp : RespondSignatures) (pos : ProofOfSpace)
    (spIndex cc ccsig rc rcsig ppk : Nat)
    (hpp : pos.pool_public_key = some ppk)
    (hpc : pos.pool_contract_puzzle_hash = none)
    (hskm : s.pool_sks_map ppk = none) :
    ∀ keys, (∀ sk ∈ keys, C.get_g1 sk = resp.farmer_pk →
      C.generate_plot_public_key resp.local_pk resp.farmer_pk = pos.plot_public_key ∧
      C.verify (C.generate_plot_public_key resp.local_pk resp.farmer_pk) cc
        (C.aggregate [ccsig, C.sign sk cc
          (C.generate_plot_public_key resp.local_pk resp.farmer_pk)]) = true ∧
      C.verify (C.generate_plot_public_key resp.local_pk resp.farmer_pk) rc
        (C.aggregate [rcsig, C.sign sk rc
          (C.generate_plot_public_key resp.local_pk resp.farmer_pk)]) = true) →
      spLoop C s resp pos spIndex cc ccsig rc rcsig keys = (.ok, []) := by
  intro keys
  induction keys with
  | nil => intro _; rfl
  | cons sk rest ih =>
    intro H
    simp only [spLoop]
    split
    · next h1 =>
      obtain ⟨h2, h3, h4⟩ := H sk (List.mem_cons_self sk rest) h1
      rw [← h1] at h2 h3 h4
      rw [if_pos h2, if_pos h3, if_pos h4]
      simp only [hpp, hpc, hskm]
    · next h1 =>
      exact ih (fun sk2 hm2 => H sk2 (List.mem_cons_of_mem sk hm2))

/-- C2 (amended): an unregistered sp_hash is logged and returns normally,
and in the signage-point branch a missing pool authentication key is logged
and returns normally with no broadcast; but the other MissingKeyMaterial
conditions raise.  In `respond_signatures` a registered key whose
recorded-proof entry is missing raises KeyError (no proof list) or
AssertionError (no entry for the plot identifier).  In the pool flow, with
no matching local private key, a missing pool authentication key raises
KeyError and an existing one still hits the
`assert plot_signature is not None` AssertionError; those raised exceptions
propagate out of the handler body. -/
theorem missing_key_material_behavior
    (C : CryptoOps) (now : Nat) (poolResp : Except Unit PoolResponse)
    (s : FarmerState) (npos : NewProofOfSpace) (ppk q : Nat)
    (hr resp : RespondSignatures) :
    (s.sps resp.sp_hash = none → respond_signatures C s resp = ⟨.ok, s, []⟩) ∧
    (∀ (sp0 : SignagePoint) (rest : List SignagePoint) (p0 : Nat × Nat),
      s.sps resp.sp_hash = some (sp0 :: rest) →
      resp.message_signatures.get? 0 = some p0 → p0.1 ≠ resp.sp_hash →
      ((s.proofs_of_space resp.sp_hash = none →
        (respond_signatures C s resp).outcome = .err .keyError) ∧
      (∀ entries, s.proofs_of_space resp.sp_hash = some entries →
        (∀ e ∈ entries, e.1 ≠ resp.plot_identifier) →
        (respond_signatures C s resp).outcome = .err .assertionError))) ∧
    (C.calculate_iterations_quality s.difficulty_constant_factor q npos.proof.size
        s.pool_difficulty npos.sp_hash < s.iters_limit →
      hr.message_signatures.length = 1 → s.private_keys = [] →
      ((s.pool_sks_map ppk = none →
        (process_new_proof_of_space_for_pool C now (some hr) poolResp s npos ppk q).outcome
          = .err .keyError) ∧
      (∀ psk, s.pool_sks_map ppk = some psk →
        (process_new_proof_of_space_for_pool C now (some hr) poolResp s npos ppk q).outcome
          = .err .assertionError))) ∧
    (∀ (sp0 : SignagePoint) (rest : List SignagePoint) (p0 p1 : Nat × Nat)
        (entries : List (Nat × ProofOfSpace)) (pos : ProofOfSpace) (ppk2 q2 : Nat),
      s.sps resp.sp_hash = some (sp0 :: rest) →
      resp.message_signatures.get? 0 = some p0 →
      p0.1 = resp.sp_hash →
      resp.message_signatures.get? 1 = some p1 →
      (sp0 :: rest).any (fun sp => sp.reward_chain_sp == p1.1) = true →
      s.proofs_of_space resp.sp_hash = some entries →
      entries.foldl
        (fun acc e => if e.1 = resp.plot_identifier then some e.2 else acc) none
        = some pos →
      C.verify_and_get_quality_string pos resp.challenge_hash resp.sp_hash = some q2 →
      pos.pool_public_key = some ppk2 →
      pos.pool_contract_puzzle_hash = none →
      s.pool_sks_map ppk2 = none →
      (∀ sk ∈ s.private_keys, C.get_g1 sk = resp.farmer_pk →
        C.generate_plot_public_key resp.local_pk resp.farmer_pk = pos.plot_public_key ∧
        C.verify (C.generate_plot_public_key resp.local_pk resp.farmer_pk) p0.1
          (C.aggregate [p0.2, C.sign sk p0.1
            (C.generate_plot_public_key resp.local_pk resp.farmer_pk)]) = true ∧
        C.verify (C.generate_plot_public_key resp.local_pk resp.farmer_pk) p1.1
          (C.aggregate [p1.2, C.sign sk p1.1
            (C.generate_plot_public_key resp.local_pk resp.farmer_pk)]) = true) →
      respond_signatures C s resp = ⟨.ok, s, []⟩) := by
  refine ⟨?_, ?_, ?_, ?_⟩
  · intro h
    simp only [respond_signatures, h]
  · intro sp0 rest p0 hsps hg0 hne
    rw [respond_block_branch_of_ne C s resp sp0 rest p0 hsps hg0 hne]
    constructor
    · intro hpf
      simp only [respondAfter, hpf]
    · intro entries hpf hnm
      simp only [respondAfter, hpf]
      rw [respond_foldl_no_match resp.plot_identifier entries hnm]
  · intro hreq hlen hkeys
    have hge : ¬ (C.calculate_iterations_quality s.difficulty_constant_factor q
        npos.proof.size s.pool_difficulty npos.sp_hash ≥ s.iters_limit) :=
      not_le.mpr hreq
    constructor
    · intro hpool
      simp only [process_new_proof_of_space_for_pool, if_neg hge, hlen, if_true, hkeys,
        plotSigLoop, hpool]
    · intro psk hpool
      simp only [process_new_proof_of_space_for_pool, if_neg hge, hlen, if_true, hkeys,
        plotSigLoop, hpool]
  · intro sp0 rest p0 p1 entries pos ppk2 q2 hsps hg0 hp hg1 hany hpf hfold hvq hpp
      hpc hskm Hall
    rw [respond_sp_branch_of_match C s resp sp0 rest p0 p1 hsps hg0 hp hg1 hany]
    have hrun := spLoop_missing_pool_key C s resp pos sp0.signage_point_index
      p0.1 p0.2 p1.1 p1.2 ppk2 hpp hpc hskm s.private_keys Hall
    simp only [respondAfter, hpf, hfold, hvq, hg0, hg1, hrun, if_true]

/-- State with `spA` registered under key 10 but an empty recorded-proof list
for that key. -/
def s2c : FarmerState :=
  { S0 with sps := fun k => if k = 10 then some [spA] else none,
            proofs_of_space := fun k => if k = 10 then some [] else none }

/-- A block-signing-shaped response (first message 0 does not match sp_hash
10) whose plot identifier has no recorded proof. -/
def resp2 : RespondSignatures := ⟨1, 2, 10, 4, 5, [(0, 0), (0, 0)]⟩

/-- C2 counterexample: a response whose recorded proof is absent makes the
handler raise AssertionError (`assert pospace is not None`) instead of
logging and returning normally. -/
theorem missing_proof_record_counterexample :
    s2c.sps 10 = some [spA] ∧ s2c.proofs_of_space 10 = some [] ∧
    (respond_signatures C0 s2c resp2).outcome = .err .assertionError := by
  refine ⟨rfl, rfl, ?_⟩
  decide

/-- A harvester response with exactly one message/signature pair, as the
pool flow asserts. -/
def hr0 : RespondSignatures := ⟨1, 2, 10, 4, 5, [(0, 0)]⟩

/-- A proof carrying pool public key 77, no pool-contract hash, and plot
public key 9 (the reconstruction `gen 4 5` under `C0`). -/
def proofP : ProofOfSpace := ⟨32, some 77, none, 9⟩

/-- State whose signage-point branch can complete for `resp5b` except that
the pool authentication key for 77 is absent. -/
def s2w : FarmerState :=
  { S0 with sps := fun k => if k = 10 then some [spA] else none,
            proofs_of_space := fun k => if k = 10 then some [(1, proofP)] else none,
            private_keys := [5] }

/-- Witness for C2: a concrete pool flow with no pool authentication key
raises KeyError, and a concrete signage-point-branch flow with no pool
authentication key returns normally with no broadcast. -/
theorem missing_key_material_behavior_witness :
    S0.pool_sks_map 77 = none ∧ S0.private_keys = [] ∧
    (process_new_proof_of_space_for_pool C0 0 (some hr0) (.error ()) S0 npos0 77 7).outcome
      = .err .keyError ∧
    s2w.pool_sks_map 77 = none ∧
    respond_signatures C0 s2w resp5b = ⟨.ok, s2w, []⟩ :=
  ⟨rfl, rfl,
    ((missing_key_material_behavior C0 0 (.error ()) S0 npos0 77 7 hr0 resp2).2.2.1
      (by decide) rfl rfl).1 rfl,
    rfl,
    (missing_key_material_behavior C0 0 (.error ()) s2w npos0 77 7 hr0 resp5b).2.2.2
      spA [] (10, 1) (3, 1) [(1, proofP)] proofP 77 7 rfl rfl rfl rfl (by decide)
      rfl rfl rfl rfl rfl rfl (by decide)⟩

end FarmerApi

namespace FarmerApi

/-! ## C6: pool difficulty follows the submission response -/

/-- C6: once the pool flow reaches the submission call, the resulting pool
difficulty is exactly the current_difficulty carried by the structured
response, both on error code 5 and on success; any other error code leaves
it unchanged, and a transport failure is caught, changes nothing beyond the
pre-submission timestamp stamp, and returns normally. -/
theorem pool_difficulty_follows_response
    (C : CryptoOps) (now : Nat) (poolResp : Except Unit PoolResponse)
    (s : FarmerState) (npos : NewProofOfSpace) (ppk q psk ps : Nat)
    (hr : RespondSignatures)
    (hreq : C.calculate_iterations_quality s.difficulty_constant_factor q npos.proof.size
      s.pool_difficulty npos.sp_hash < s.iters_limit)
    (hlen : hr.message_signatures.length = 1)
    (hloop : plotSigLoop C hr
      (C.payload_hash ⟨npos.proof, s.pool_difficulty, npos.sp_hash,
        npos.signage_point_index == 0, s.pool_payout_address⟩)
      npos.proof.plot_public_key (msgAt hr 0).2 s.private_keys none = .ok (some ps))
    (hpool : s.pool_sks_map ppk = some psk) :
    (∀ u, poolResp = .error u →
      (process_new_proof_of_space_for_pool C now (some hr) poolResp s npos ppk q).outcome = .ok ∧
      (process_new_proof_of_space_for_pool C now (some hr) poolResp s npos ppk q).state
        = { s with last_pool_submit_timestamp := now }) ∧
    (∀ pr d, poolResp = .ok pr → pr.error_code = some 5 → pr.current_difficulty = some d →
      (process_new_proof_of_space_for_pool C now (some hr) poolResp s npos ppk q).outcome = .ok ∧
      (process_new_proof_of_space_for_pool C now (some hr) poolResp s npos ppk q).state.pool_difficulty = d) ∧
    (∀ pr d, poolResp = .ok pr → pr.error_code = none → pr.current_difficulty = some d →
      (process_new_proof_of_space_for_pool C now (some hr) poolResp s npos ppk q).outcome = .ok ∧
      (process_new_proof_of_space_for_pool C now (some hr) poolResp s npos ppk q).state.pool_difficulty = d) ∧
    (∀ pr ec em, poolResp = .ok pr → pr.error_code = some ec → ec ≠ 5 →
      pr.error_message = some em →
      (process_new_proof_of_space_for_pool C now (some hr) poolResp s npos ppk q).outcome = .ok ∧
      (process_new_proof_of_space_for_pool C now (some hr) poolResp s npos ppk q).state.pool_difficulty
        = s.pool_difficulty) := by
  have hge : ¬ (C.calculate_iterations_quality s.difficulty_constant_factor q npos.proof.size
      s.pool_difficulty npos.sp_hash ≥ s.iters_limit) := not_le.mpr hreq
  refine ⟨?_, ?_, ?_, ?_⟩
  · intro u hu
    subst hu
    simp [process_new_proof_of_space_for_pool, if_neg hge, hlen, hloop, hpool]
  · intro pr d hpr hec hcd
    subst hpr
    simp [process_new_proof_of_space_for_pool, if_neg hge, hlen, hloop, hpool, hec, hcd]
  · intro pr d hpr hec hcd
    subst hpr
    simp [process_new_proof_of_space_for_pool, if_neg hge, hlen, hloop, hpool, hec, hcd]
  · intro pr ec em hpr hec hne hem
    subst hpr
    simp [process_new_proof_of_space_for_pool, if_neg hge, hlen, hloop, hpool, hec, hne, hem]

/-- A proof whose plot public key matches the reconstruction `gen 4 5 = 9`. -/
def proof9 : ProofOfSpace := ⟨32, none, none, 9⟩

/-- Inbound proof carrying `proof9`. -/
def npos6 : NewProofOfSpace := ⟨1, 2, 10, proof9, 1⟩

/-- State with one matching private key (5) and a pool key for 77. -/
def s6 : FarmerState :=
  { S0 with private_keys := [5],
            pool_sks_map := fun k => if k = 77 then some 3 else none }

/-- Harvester response carrying one harvester share (7). -/
def hr6 : RespondSignatures := ⟨1, 2, 10, 4, 5, [(0, 7)]⟩

/-- Witness for C6: a code-5 response with current_difficulty 400 makes the
flow adopt 400 and return normally. -/
theorem pool_difficulty_follows_response_witness :
    (process_new_proof_of_space_for_pool C0 0 (some hr6)
      (.ok ⟨some 5, none, some 400⟩) s6 npos6 77 7).outcome = .ok ∧
    (process_new_proof_of_space_for_pool C0 0 (some hr6)
      (.ok ⟨some 5, none, some 400⟩) s6 npos6 77 7).state.pool_difficulty = 400 :=
  (pool_difficulty_follows_response C0 0 (.ok ⟨some 5, none, some 400⟩) s6 npos6 77 7 3 32 hr6
    (by decide) rfl rfl rfl).2.1 ⟨some 5, none, some 400⟩ 400 rfl rfl rfl

end FarmerApi

namespace FarmerApi

/-! ## C7: when and how a pool submission is built -/

/-- Any pool submission emitted by the pool flow implies the
required-iterations check passed and its payload is exactly the proof, the
current pool difficulty, the sp_hash, the end-of-subslot flag, and the pool
payout address. -/
theorem pool_submission_payload (C : CryptoOps) (now : Nat)
    (harvResp : Option RespondSignatures) (poolResp : Except Unit PoolResponse)
    (s : FarmerState) (npos : NewProofOfSpace) (ppk q : Nat) (sub : PoolSubmission)
    (hmem : Out.poolSubmit sub
      ∈ (process_new_proof_of_space_for_pool C now harvResp poolResp s npos ppk q).msgs) :
    C.calculate_iterations_quality s.difficulty_constant_factor q npos.proof.size
      s.pool_difficulty npos.sp_hash < s.iters_limit ∧
    sub.payload = ⟨npos.proof, s.pool_difficulty, npos.sp_hash,
      npos.signage_point_index == 0, s.pool_payout_address⟩ := by
  simp only [process_new_proof_of_space_for_pool] at hmem
  split at hmem
  · simp at hmem
  · next hge =>
    refine ⟨not_le.mp hge, ?_⟩
    repeat' split at hmem
    all_goals simp_all

end FarmerApi

namespace FarmerApi

/-- C7: a pool submission is emitted only when the proof carries a pool
public key, pooling is enabled, and the required iterations computed under
the current pool difficulty are strictly below the pool iters limit; its
payload carries the proof, the current pool difficulty, the sp_hash, the
pool payout address, and an end-of-subslot flag true iff the proof's
signage_point_index is 0. -/
theorem pool_payload_only_when_eligible (C : CryptoOps) (now peerId : Nat)
    (harvResp : Option RespondSignatures) (poolResp : Except Unit PoolResponse)
    (s : FarmerState) (npos : NewProofOfSpace) (sub : PoolSubmission)
    (hmem : Out.poolSubmit sub
      ∈ (new_proof_of_space C now peerId harvResp poolResp s npos).msgs) :
    npos.proof.pool_public_key.isSome = true ∧ s.pooling_enabled = true ∧
    (∃ q2, C.verify_and_get_quality_string npos.proof npos.challenge_hash npos.sp_hash
        = some q2 ∧
      C.calculate_iterations_quality s.difficulty_constant_factor q2 npos.proof.size
        s.pool_difficulty npos.sp_hash < s.iters_limit) ∧
    sub.payload = ⟨npos.proof, s.pool_difficulty, npos.sp_hash,
      npos.signage_point_index == 0, s.pool_payout_address⟩ ∧
    (sub.payload.end_of_sub_slot = true ↔ npos.signage_point_index = 0) := by
  simp only [new_proof_of_space] at hmem
  by_cases hinit : (s.number_of_responses npos.sp_hash).isNone = true
  all_goals simp only [hinit, Bool.false_eq_true, if_true, if_false] at hmem
  all_goals split at hmem
  · simp at hmem
  · split at hmem
    · simp at hmem
    · next sps hs2 =>
      cases sps with
      | nil => simp [nposLoop] at hmem
      | cons sp rest2 =>
        simp only [nposLoop] at hmem
        cases hq : C.verify_and_get_quality_string npos.proof npos.challenge_hash
            npos.sp_hash with
        | none => rw [hq] at hmem; simp at hmem
        | some q2 =>
          rw [hq] at hmem
          simp only at hmem
          split at hmem
          · simp at hmem
          · split at hmem
            · next ppk hpk =>
              split at hmem
              · next hen =>
                have h := pool_submission_payload C now harvResp poolResp _ npos ppk q2 sub hmem
                exact ⟨by rw [hpk]; rfl, hen, ⟨q2, rfl, h.1⟩, h.2,
                  by rw [h.2]; simp [beq_iff_eq]⟩
              · simp at hmem
            · simp at hmem
  · simp at hmem
  · split at hmem
    · simp at hmem
    · next sps hs2 =>
      cases sps with
      | nil => simp [nposLoop] at hmem
      | cons sp rest2 =>
        simp only [nposLoop] at hmem
        cases hq : C.verify_and_get_quality_string npos.proof npos.challenge_hash
            npos.sp_hash with
        | none => rw [hq] at hmem; simp at hmem
        | some q2 =>
          rw [hq] at hmem
          simp only at hmem
          split at hmem
          · simp at hmem
          · split at hmem
            · next ppk hpk =>
              split at hmem
              · next hen =>
                have h := pool_submission_payload C now harvResp poolResp _ npos ppk q2 sub hmem
                exact ⟨by rw [hpk]; rfl, hen, ⟨q2, rfl, h.1⟩, h.2,
                  by rw [h.2]; simp [beq_iff_eq]⟩
              · simp at hmem
            · simp at hmem

end FarmerApi

namespace FarmerApi

/-- Crypto instantiation whose interval threshold is 0, so no proof is
block-eligible and the pool path is exercised. -/
def C7ops : CryptoOps := { C0 with calculate_sp_interval_iters := fun _ => 0 }

/-- A proof carrying pool public key 77 and plot public key 9. -/
def proof7 : ProofOfSpace := ⟨32, some 77, none, 9⟩

/-- Inbound proof at signage point index 0 (end of sub slot). -/
def npos7 : NewProofOfSpace := ⟨1, 2, 10, proof7, 0⟩

/-- Pooling-enabled state with key 10 registered, private key 5 and a pool
authentication key for 77. -/
def s7 : FarmerState :=
  { S0 with sps := fun k => if k = 10 then some [spA] else none,
            pooling_enabled := true,
            private_keys := [5],
            pool_sks_map := fun k => if k = 77 then some 3 else none }

/-- Harvester response for the pool-payload signature request. -/
def hr7 : RespondSignatures := ⟨1, 2, 10, 4, 5, [(0, 7)]⟩

/-- Witness for C7: a concrete run that emits a pool submission with
end_of_sub_slot true. -/
theorem pool_payload_only_when_eligible_witness :
    Out.poolSubmit ⟨⟨proof7, 1, 10, true, 0⟩, 46⟩
      ∈ (new_proof_of_space C7ops 0 0 (some hr7) (.ok ⟨none, none, some 400⟩) s7 npos7).msgs ∧
    s7.pooling_enabled = true ∧
    (⟨⟨proof7, 1, 10, true, 0⟩, 46⟩ : PoolSubmission).payload
      = ⟨npos7.proof, s7.pool_difficulty, npos7.sp_hash,
          npos7.signage_point_index == 0, s7.pool_payout_address⟩ :=
  ⟨by decide,
    (pool_payload_only_when_eligible C7ops 0 0 (some hr7) (.ok ⟨none, none, some 400⟩)
      s7 npos7 ⟨⟨proof7, 1, 10, true, 0⟩, 46⟩ (by decide)).2.1,
    (pool_payload_only_when_eligible C7ops 0 0 (some hr7) (.ok ⟨none, none, some 400⟩)
      s7 npos7 ⟨⟨proof7, 1, 10, true, 0⟩, 46⟩ (by decide)).2.2.2.1⟩

end FarmerApi

namespace FarmerApi

/-! ## C1: aggregate signatures are verified before any full-node broadcast -/

/-- The combined plot public key reconstructed from the response's local key
and its declared farmer key (`generate_plot_public_key(local_pk, pk)` at the
point where `pk == farmer_pk`). -/
def plotPK (C : CryptoOps) (resp : RespondSignatures) : Nat :=
  C.generate_plot_public_key resp.local_pk resp.farmer_pk

/-- The aggregate signatures carried by a full-node broadcast are exactly
the aggregation of the harvester shares from the response with the farmer
shares signed by `sk`, and both verify against the reconstructed plot key. -/
def VerifiedAggs (C : CryptoOps) (resp : RespondSignatures) (sk : Nat) : Out → Prop
  | .toFullNodes (.declare d) =>
      d.challenge_chain_sp = (msgAt resp 0).1 ∧ d.reward_chain_sp = (msgAt resp 1).1 ∧
      d.agg_sig_cc_sp
        = C.aggregate [(msgAt resp 0).2, C.sign sk (msgAt resp 0).1 (plotPK C resp)] ∧
      d.agg_sig_rc_sp
        = C.aggregate [(msgAt resp 1).2, C.sign sk (msgAt resp 1).1 (plotPK C resp)] ∧
      C.verify (plotPK C resp) d.challenge_chain_sp d.agg_sig_cc_sp = true ∧
      C.verify (plotPK C resp) d.reward_chain_sp d.agg_sig_rc_sp = true
  | .toFullNodes (.signedValues v) =>
      v.foliage_agg_sig
        = C.aggregate [(msgAt resp 0).2, C.sign sk (msgAt resp 0).1 (plotPK C resp)] ∧
      v.foliage_block_agg_sig
        = C.aggregate [(msgAt resp 1).2, C.sign sk (msgAt resp 1).1 (plotPK C resp)] ∧
      C.verify (plotPK C resp) (msgAt resp 0).1 v.foliage_agg_sig = true ∧
      C.verify (plotPK C resp) (msgAt resp 1).1 v.foliage_block_agg_sig = true
  | _ => False

/-- Every signature pair a matched key could complete fails verification
(the situation after corrupting either harvester partial signature). -/
def CorruptHyp (C : CryptoOps) (s : FarmerState) (resp : RespondSignatures) : Prop :=
  ∀ sk ∈ s.private_keys, C.get_g1 sk = resp.farmer_pk →
    C.verify (plotPK C resp) (msgAt resp 0).1
      (C.aggregate [(msgAt resp 0).2, C.sign sk (msgAt resp 0).1 (plotPK C resp)]) = false ∨
    C.verify (plotPK C resp) (msgAt resp 1).1
      (C.aggregate [(msgAt resp 1).2, C.sign sk (msgAt resp 1).1 (plotPK C resp)]) = false

/-- Soundness of the signage-point signing loop: every emitted message is a
DeclareProofOfSpace built for a matched key whose two aggregates were
verified. -/
theorem spLoop_sound (C : CryptoOps) (s : FarmerState) (resp : RespondSignatures)
    (pos : ProofOfSpace) (spIndex cc ccsig rc rcsig : Nat) :
    ∀ keys, ∀ m ∈ (spLoop C s resp pos spIndex cc ccsig rc rcsig keys).2,
      ∃ sk, sk ∈ keys ∧ C.get_g1 sk = resp.farmer_pk ∧
        ∃ d : DeclareProofOfSpaceMsg, m = Out.toFullNodes (.declare d) ∧
          d.challenge_chain_sp = cc ∧ d.reward_chain_sp = rc ∧
          d.agg_sig_cc_sp = C.aggregate [ccsig, C.sign sk cc (plotPK C resp)] ∧
          d.agg_sig_rc_sp = C.aggregate [rcsig, C.sign sk rc (plotPK C resp)] ∧
          C.verify (plotPK C resp) cc d.agg_sig_cc_sp = true ∧
          C.verify (plotPK C resp) rc d.agg_sig_rc_sp = true := by
  intro keys
  induction keys with
  | nil => intro m hm; simp [spLoop] at hm
  | cons sk rest ih =>
    intro m hm
    simp only [spLoop] at hm
    split at hm
    · next h1 =>
      split at hm
      · next h2 =>
        split at hm
        · next h3 =>
          split at hm
          · next h4 =>
            split at hm
            · next ppk hpp =>
              split at hm
              · next hpc => simp at hm
              · next hpc =>
                split at hm
                · next hsk => simp at hm
                · next psk hsk =>
                  simp only [List.mem_singleton] at hm
                  subst hm
                  refine ⟨sk, List.mem_cons_self sk rest, h1,
                    ⟨_, rfl, rfl, rfl, ?_, ?_, ?_, ?_⟩⟩
                  · simp only [plotPK, ← h1]
                  · simp only [plotPK, ← h1]
                  · simp only [plotPK, ← h1]; exact h3
                  · simp only [plotPK, ← h1]; exact h4
            · next hpp =>
              split at hm
              · next hpc => simp at hm
              · next w hpc =>
                simp only [List.mem_singleton] at hm
                subst hm
                refine ⟨sk, List.mem_cons_self sk rest, h1,
                  ⟨_, rfl, rfl, rfl, ?_, ?_, ?_, ?_⟩⟩
                · simp only [plotPK, ← h1]
                · simp only [plotPK, ← h1]
                · simp only [plotPK, ← h1]; exact h3
                · simp only [plotPK, ← h1]; exact h4
          · next h4 => simp at hm
        · next h3 => simp at hm
      · next h2 => simp at hm
    · next h1 =>
      obtain ⟨sk2, hmem2, hrest⟩ := ih m hm
      exact ⟨sk2, List.mem_cons_of_mem sk hmem2, hrest⟩

/-- When every completable aggregate fails verification, the signage-point
signing loop emits nothing (the assert aborts the flow first). -/
theorem spLoop_corrupt (C : CryptoOps) (s : FarmerState) (resp : RespondSignatures)
    (pos : ProofOfSpace) (spIndex cc ccsig rc rcsig : Nat) (keys : List Nat)
    (H : ∀ sk ∈ keys, C.get_g1 sk = resp.farmer_pk →
      C.verify (plotPK C resp) cc (C.aggregate [ccsig, C.sign sk cc (plotPK C resp)]) = false ∨
      C.verify (plotPK C resp) rc (C.aggregate [rcsig, C.sign sk rc (plotPK C resp)]) = false) :
    (spLoop C s resp pos spIndex cc ccsig rc rcsig keys).2 = [] := by
  induction keys with
  | nil => rfl
  | cons sk rest ih =>
    simp only [spLoop]
    split
    · next h1 =>
      have hd := H sk (List.mem_cons_self sk rest) h1
      simp only [plotPK, ← h1] at hd
      split
      · next h2 =>
        cases hd with
        | inl hv => simp [hv]
        | inr hv =>
          split
          · next h3 => simp [hv]
          · next h3 => rfl
      · next h2 => rfl
    · next h1 =>
      exact ih (fun sk2 hm2 => H sk2 (List.mem_cons_of_mem sk hm2))

end FarmerApi

namespace FarmerApi

/-- Soundness of the block-signing loop: every message beyond the
accumulator is a SignedValues built for a matched key whose two aggregates
were verified. -/
theorem blockLoop_sound (C : CryptoOps) (resp : RespondSignatures)
    (pos : ProofOfSpace) (q : Nat) :
    ∀ keys acc, ∀ m ∈ (blockLoop C resp pos q keys acc).2,
      m ∈ acc ∨ ∃ sk, sk ∈ keys ∧ C.get_g1 sk = resp.farmer_pk ∧
        ∃ v : SignedValuesMsg, m = Out.toFullNodes (.signedValues v) ∧
          v.quality_string = q ∧
          v.foliage_agg_sig
            = C.aggregate [(msgAt resp 0).2, C.sign sk (msgAt resp 0).1 (plotPK C resp)] ∧
          v.foliage_block_agg_sig
            = C.aggregate [(msgAt resp 1).2, C.sign sk (msgAt resp 1).1 (plotPK C resp)] ∧
          C.verify (plotPK C resp) (msgAt resp 0).1 v.foliage_agg_sig = true ∧
          C.verify (plotPK C resp) (msgAt resp 1).1 v.foliage_block_agg_sig = true := by
  intro keys
  induction keys with
  | nil => intro acc m hm; left; simpa [blockLoop] using hm
  | cons sk rest ih =>
    intro acc m hm
    cases hg0 : resp.message_signatures.get? 0 with
    | none => simp only [blockLoop, hg0] at hm; left; simpa using hm
    | some p0 =>
      cases hg1 : resp.message_signatures.get? 1 with
      | none => simp only [blockLoop, hg0, hg1] at hm; left; simpa using hm
      | some p1 =>
        have hm0 : msgAt resp 0 = p0 := by
          simp only [msgAt, hg0, Option.getD_some]
        have hm1 : msgAt resp 1 = p1 := by
          simp only [msgAt, hg1, Option.getD_some]
        simp only [blockLoop, hg0, hg1] at hm
        split at hm
        · next h1 =>
          split at hm
          · next h2 =>
            split at hm
            · next h3 =>
              split at hm
              · next h4 =>
                rcases ih _ m hm with hacc | ⟨sk2, hmem2, hrest⟩
                · rcases List.mem_append.mp hacc with h | h
                  · exact Or.inl h
                  · simp only [List.mem_singleton] at h
                    subst h
                    refine Or.inr ⟨sk, List.mem_cons_self sk rest, h1,
                      ⟨_, rfl, rfl, ?_, ?_, ?_, ?_⟩⟩
                    · rw [hm0]; simp only [plotPK, ← h1]
                    · rw [hm1]; simp only [plotPK, ← h1]
                    · rw [hm0]; simp only [plotPK, ← h1]; exact h3
                    · rw [hm1]; simp only [plotPK, ← h1]; exact h4
                · exact Or.inr ⟨sk2, List.mem_cons_of_mem sk hmem2, hrest⟩
              · next h4 => left; simpa using hm
            · next h3 => left; simpa using hm
          · next h2 => left; simpa using hm
        · next h1 =>
          rcases ih acc m hm with hacc | ⟨sk2, hmem2, hrest⟩
          · exact Or.inl hacc
          · exact Or.inr ⟨sk2, List.mem_cons_of_mem sk hmem2, hrest⟩

/-- When every completable aggregate fails verification, the block-signing
loop adds nothing to the accumulator. -/
theorem blockLoop_corrupt (C : CryptoOps) (s : FarmerState) (resp : RespondSignatures)
    (pos : ProofOfSpace) (q : Nat)
    (H : CorruptHyp C s resp) :
    ∀ keys, (∀ sk ∈ keys, sk ∈ s.private_keys) →
      ∀ acc, (blockLoop C resp pos q keys acc).2 = acc := by
  intro keys
  induction keys with
  | nil => intro _ acc; rfl
  | cons sk rest ih =>
    intro hsub acc
    cases hg0 : resp.message_signatures.get? 0 with
    | none => simp only [blockLoop, hg0]
    | some p0 =>
      cases hg1 : resp.message_signatures.get? 1 with
      | none => simp only [blockLoop, hg0, hg1]
      | some p1 =>
        have hm0 : msgAt resp 0 = p0 := by
          simp only [msgAt, hg0, Option.getD_some]
        have hm1 : msgAt resp 1 = p1 := by
          simp only [msgAt, hg1, Option.getD_some]
        simp only [blockLoop, hg0, hg1]
        split
        · next h1 =>
          have hd := H sk (hsub sk (List.mem_cons_self sk rest)) h1
          rw [hm0, hm1] at hd
          simp only [plotPK, ← h1] at hd
          split
          · next h2 =>
            cases hd with
            | inl hv => simp [hv]
            | inr hv =>
              split
              · next h3 => simp [hv]
              · next h3 => rfl
          · next h2 => rfl
        · next h1 =>
          exact ih (fun sk2 hm2 => hsub sk2 (List.mem_cons_of_mem sk hm2)) acc

end FarmerApi

namespace FarmerApi

/-- Every message the post-decision part of `respond_signatures` emits is a
full-node broadcast whose aggregates were assembled for a matched key and
verified. -/
theorem respondAfter_sound (C : CryptoOps) (s : FarmerState)
    (resp : RespondSignatures) (spIndex : Nat) (b : Bool) :
    ∀ m ∈ (respondAfter C s resp spIndex b).msgs,
      ∃ sk, sk ∈ s.private_keys ∧ C.get_g1 sk = resp.farmer_pk ∧ VerifiedAggs C resp sk m := by
  intro m hm
  simp only [respondAfter] at hm
  split at hm
  · simp at hm
  · next entries hpf =>
    split at hm
    · simp at hm
    · next pos hfold =>
      split at hm
      · simp at hm
      · next qq hvq =>
        split at hm
        · split at hm
          · next p0 p1 hg0 hg1 =>
            obtain ⟨sk, hmem, h1, d, hmeq, hcc, hrc, hacc, harc, hv1, hv2⟩ :=
              spLoop_sound C s resp pos spIndex p0.1 p0.2 p1.1 p1.2 s.private_keys m hm
            subst hmeq
            have hm0 : msgAt resp 0 = p0 := by
              simp only [msgAt, hg0, Option.getD_some]
            have hm1 : msgAt resp 1 = p1 := by
              simp only [msgAt, hg1, Option.getD_some]
            refine ⟨sk, hmem, h1, ?_⟩
            simp only [VerifiedAggs]
            refine ⟨?_, ?_, ?_, ?_, ?_, ?_⟩
            · rw [hm0]; exact hcc
            · rw [hm1]; exact hrc
            · rw [hm0]; exact hacc
            · rw [hm1]; exact harc
            · rw [hcc]; exact hv1
            · rw [hrc]; exact hv2
          · simp at hm
        · rcases blockLoop_sound C resp pos qq s.private_keys [] m hm with
            hacc | ⟨sk, hmem, h1, v, hmeq, hq, hfs, hfbs, hv1, hv2⟩
          · simp at hacc
          · subst hmeq
            refine ⟨sk, hmem, h1, ?_⟩
            simp only [VerifiedAggs]
            exact ⟨hfs, hfbs, hv1, hv2⟩

/-- Under `CorruptHyp` the post-decision part of `respond_signatures` emits
nothing. -/
theorem respondAfter_corrupt (C : CryptoOps) (s : FarmerState)
    (resp : RespondSignatures) (spIndex : Nat) (b : Bool) (H : CorruptHyp C s resp) :
    (respondAfter C s resp spIndex b).msgs = [] := by
  simp only [respondAfter]
  split
  · rfl
  · next entries hpf =>
    split
    · rfl
    · next pos hfold =>
      split
      · rfl
      · next qq hvq =>
        split
        · split
          · next p0 p1 hg0 hg1 =>
            have hm0 : msgAt resp 0 = p0 := by
              simp only [msgAt, hg0, Option.getD_some]
            have hm1 : msgAt resp 1 = p1 := by
              simp only [msgAt, hg1, Option.getD_some]
            refine spLoop_corrupt C s resp pos spIndex p0.1 p0.2 p1.1 p1.2
              s.private_keys ?_
            intro sk hmem h1
            have hd := H sk hmem h1
            rw [hm0, hm1] at hd
            exact hd
          · rfl
        · exact blockLoop_corrupt C s resp pos qq H s.private_keys (fun _ h => h) []

/-- `respond_signatures` either aborts with an empty message list or behaves
exactly as `respondAfter` for some branch flag. -/
theorem respond_signatures_shape (C : CryptoOps) (s : FarmerState)
    (resp : RespondSignatures) :
    respond_signatures C s resp = ⟨.ok, s, []⟩ ∨
    (∃ e, respond_signatures C s resp = ⟨.err e, s, []⟩) ∨
    (∃ spIndex b, respond_signatures C s resp = respondAfter C s resp spIndex b) := by
  cases hsps : s.sps resp.sp_hash with
  | none => left; simp [respond_signatures, hsps]
  | some sps =>
    cases sps with
    | nil =>
      right; left
      exact ⟨.indexError, by simp [respond_signatures, hsps]⟩
    | cons sp0 rest =>
      cases hsm : spMatch resp.sp_hash resp.message_signatures (sp0 :: rest) false false with
      | error e =>
        right; left
        exact ⟨e, by simp [respond_signatures, hsps, hsm]⟩
      | ok fi =>
        obtain ⟨f, i⟩ := fi
        by_cases hfi : (f && !i) = true
        · right; left
          exact ⟨.assertionError, by simp [respond_signatures, hsps, hsm, hfi]⟩
        · right; right
          exact ⟨sp0.signage_point_index, i, by simp [respond_signatures, hsps, hsm, hfi]⟩

/-- C1: every DeclareProofOfSpace or SignedValues broadcast to full-node
peers carries aggregate signatures that were first verified against the
combined plot public key reconstructed from the response's local key and the
matched farmer key; and a response whose partial signatures are corrupted,
so that every completable aggregate fails verification, produces no
broadcast at all. -/
theorem respond_signatures_broadcasts_verified (C : CryptoOps) (s : FarmerState)
    (resp : RespondSignatures) :
    (∀ m ∈ (respond_signatures C s resp).msgs,
      ∃ sk, sk ∈ s.private_keys ∧ C.get_g1 sk = resp.farmer_pk ∧
        VerifiedAggs C resp sk m) ∧
    (CorruptHyp C s resp → (respond_signatures C s resp).msgs = []) := by
  rcases respond_signatures_shape C s resp with h | ⟨e, h⟩ | ⟨i, b, h⟩
  · rw [h]; exact ⟨by simp, fun _ => rfl⟩
  · rw [h]; exact ⟨by simp, fun _ => rfl⟩
  · rw [h]
    exact ⟨respondAfter_sound C s resp i b, fun H => respondAfter_corrupt C s resp i b H⟩

/-- Crypto instantiation whose aggregate verification always fails,
modelling corrupted partial signatures. -/
def Cfalse : CryptoOps := { C0 with verify := fun _ _ _ => false }

/-- State with one matching private key, a registered signage point and a
recorded proof, so only the failing verification stops the broadcast. -/
def s1w : FarmerState :=
  { S0 with sps := fun k => if k = 10 then some [spA] else none,
            proofs_of_space := fun k => if k = 10 then some [(1, proof9)] else none,
            private_keys := [5] }

/-- Witness for C1: with failing verification nothing is broadcast. -/
theorem respond_signatures_broadcasts_verified_witness :
    (respond_signatures Cfalse s1w resp5b).msgs = [] :=
  (respond_signatures_broadcasts_verified Cfalse s1w resp5b).2 (fun _ _ _ => Or.inl rfl)

end FarmerApi
